import Mathlib

/-!
# Verification of the authenticated HTTP client layer (`src/api/apiService.ts`)

This file gives a shallow embedding of the client layer of the repository:
the request interceptor (bearer-token injection), the response interceptor
(the single-flight token-refresh state machine with its pending queue), the
`callAPI` facade's URL templating (path substitution and query-string
serialization) and its error classifier (`ApiError`).

The embedding follows the TypeScript source line by line.  JavaScript
truthiness of strings (`""` is falsy) is modelled explicitly wherever the
source relies on it.  The process-wide mutable state (`isRefreshing`,
`failedQueue`, `localStorage`, the axios default headers, and
`window.location`) is collected into an explicit state record `St`, and the
asynchronous interceptor is split at its `await` point into the synchronous
entry `handle401` and the continuation `onRefreshSettled`.
-/

/-! ## JavaScript helpers -/

/-- JavaScript truthiness of a nullable string: `null`/`undefined` and the
empty string are falsy. -/
def jsTruthyStr : Option String → Bool
  | some s => s ≠ ""
  | none => false

/-- JavaScript `a || b` on a nullable string `a` with a string default `b`
(the empty string is falsy, so it falls through to the default). -/
def jsOrStr (o : Option String) (dflt : String) : String :=
  match o with
  | some s => if s ≠ "" then s else dflt
  | none => dflt

/-! ## Error model (`ApiError`, lines 20–32, and the catch block, 225–243)

An axios rejection is characterized, as far as the `catch` block of
`callAPI` reads it, by its `name`, its `code`, whether `error.response`
exists (and then its status and body), and whether `error.request` exists.
The response body is read only through its optional `message` and `code`
fields. -/

/-- The fields of a server response body that the classifier reads
(`data?.message`, `data?.code`). -/
structure RespBody where
  message : Option String
  code : Option String
deriving DecidableEq

/-- `error.response`: HTTP status and body (`none` body models a
`null`/`undefined` `data`). -/
structure AxResp where
  status : Nat
  data : Option RespBody
deriving DecidableEq

/-- The shape of a transport-layer rejection as read by the `catch` block:
`error.name`, `error.code`, `error.response` (if a response was received),
and whether `error.request` is set (a request went out). -/
structure AxErr where
  name : String
  code : Option String
  response : Option AxResp
  hasRequest : Bool
deriving DecidableEq

/-- The `ApiError` class (lines 20–32): normalized error value thrown to the
caller of `callAPI`. -/
structure ApiError where
  message : String
  status : Option Nat
  data : Option RespBody
  code : Option String
deriving DecidableEq

/-- The four branches of the `catch` block, as a closed taxonomy (the
spec's `ClientError.kind`). -/
inductive ClientKind where
  | aborted
  | serverError
  | networkError
  | setupError
deriving DecidableEq

/-- Which branch of the `catch` block (lines 225–243) fires for a given
rejection, in source order: cancellation names first, then
`error.response`, then `error.request`, else setup. -/
def branchOf (e : AxErr) : ClientKind :=
  if e.name = "CanceledError" ∨ e.name = "AbortError" then .aborted
  else if e.response.isSome then .serverError
  else if e.hasRequest then .networkError
  else .setupError

/-- The `catch` block of `callAPI` (lines 225–243): maps a transport
rejection to the `ApiError` thrown to the caller.
- `error.name` is `CanceledError`/`AbortError` → `ABORTED`, no status;
- `error.response` → status/body passthrough, `data?.message || "API Error"`,
  `data?.code`;
- `error.request` → `NETWORK_ERROR`, no status;
- otherwise → `SETUP_ERROR`. -/
def classify (e : AxErr) : ApiError :=
  if e.name = "CanceledError" ∨ e.name = "AbortError" then
    { message := "Yêu cầu đã bị hủy", status := none, data := none, code := some "ABORTED" }
  else
    match e.response with
    | some resp =>
        { message := jsOrStr (resp.data.bind RespBody.message) "API Error",
          status := some resp.status,
          data := resp.data,
          code := resp.data.bind RespBody.code }
    | none =>
        if e.hasRequest then
          { message := "Không thể kết nối đến máy chủ", status := none, data := none,
            code := some "NETWORK_ERROR" }
        else
          { message := "Lỗi cấu hình API", status := none, data := none,
            code := some "SETUP_ERROR" }

/-- The error shape the transport library produces when the request
timeout fires: axios rejects with an `AxiosError` (name `"AxiosError"`)
whose `code` is `"ECONNABORTED"` (the transitional default), with
`error.request` set and no `error.response`.  This is axios's documented
timeout behavior; a timeout does not produce a `CanceledError`. -/
def axiosTimeoutError : AxErr :=
  { name := "AxiosError", code := some "ECONNABORTED", response := none, hasRequest := true }

/-! ## Outbound header assembly (request interceptor, lines 42–56)

Axios merges the instance default headers (`defaults.headers.common`) into
every request's headers, with per-request headers taking precedence per
key; afterwards the request interceptor runs on the merged config.  We
model only the `Authorization` key.  The interceptor (lines 42–56) sets
`config.headers.Authorization = Bearer <token>` when the request is marked
`requireAuth` and a (truthy) access token is stored; `config.headers` is
always an object for requests issued through `callAPI`. -/

/-- Axios header merge for one key: the per-request value wins over the
instance default. -/
def mergeHeader (defaultAuth cfgAuth : Option String) : Option String :=
  match cfgAuth with
  | some a => some a
  | none => defaultAuth

/-- The `Authorization` header the request goes out with:
defaults/per-request merge followed by the request interceptor
(lines 42–56), which injects `Bearer <token>` only for `requireAuth`
requests with a truthy stored token. -/
def outgoingAuth (defaultAuth cfgAuth : Option String) (requireAuth : Bool)
    (storedAccess : Option String) : Option String :=
  match requireAuth, storedAccess with
  | true, some t => if t ≠ "" then some ("Bearer " ++ t) else mergeHeader defaultAuth cfgAuth
  | _, _ => mergeHeader defaultAuth cfgAuth

/-! ## The refresh coordinator (lines 58–157)

Process-wide mutable state: `isRefreshing`, `failedQueue`, the two
`localStorage` tokens, `axiosInstance.defaults.headers.common.Authorization`,
and `window.location`.  A queued continuation is identified by the id of
the request that was pushed.  The single-threaded interceptor body is split
at `await axios.post("/api/auth/refresh", ...)` into `handle401`
(synchronous part) and `onRefreshSettled` (the continuation that runs when
that call settles). -/

/-- The refresh call's failure causes, as the state machine distinguishes
them: the locally thrown `Error("NO_REFRESH_TOKEN")` or a failed HTTP
refresh call. -/
inductive RErr where
  | noRefreshToken
  | httpFailure (status : Nat)
deriving DecidableEq

/-- The ultimate fate of a request routed through the refresh machinery. -/
inductive Outcome where
  /-- Its promise continues: `headers.Authorization = Bearer token` and the
  request is reissued through the instance. -/
  | retryWith (token : String)
  /-- Its promise rejects with the refresh error. -/
  | rejected (e : RErr)
  /-- Its continuation is dropped without being called (the queue is
  drained with neither an error nor a truthy token), so it never settles. -/
  | never
deriving DecidableEq

/-- The two `localStorage` token slots. -/
structure Store where
  access : Option String
  refresh : Option String
deriving DecidableEq

/-- The process-wide state read and written by the interceptors. -/
structure St where
  isRefreshing : Bool
  failedQueue : List Nat
  store : Store
  defaultAuth : Option String
  locationPath : String
  redirects : Nat
  refreshCalls : Nat
deriving DecidableEq

/-- The result of `await axios.post("/api/auth/refresh", ...)`: success
carries `res.data.access_token` and the optional `res.data.refresh_token`;
failure carries the refresh error. -/
inductive RefreshResult where
  | ok (access : String) (newRefresh : Option String)
  | err (e : RErr)
deriving DecidableEq

/-- `processQueue` (lines 66–80): each queued continuation is rejected when
an error is given, resolved (continuing into a retry with the token) when a
truthy token is given, and silently dropped otherwise; the queue is then
cleared by the caller. -/
def procQueue (queue : List Nat) (error : Option RErr) (token : Option String) :
    List (Nat × Outcome) :=
  queue.map fun i =>
    (i, match error with
        | some e => Outcome.rejected e
        | none => match token with
            | some t => if t ≠ "" then Outcome.retryWith t else Outcome.never
            | none => Outcome.never)

/-- `redirectToLogin` (lines 83–87): navigate to `/login` only when not
already there. -/
def redirectToLogin (st : St) : St :=
  if st.locationPath ≠ "/login" then
    { st with locationPath := "/login", redirects := st.redirects + 1 }
  else st

/-- The descriptor-level view of an in-flight request as the response
interceptor reads it: its identity, `requireAuth` marker, and the mutable
`_retry` flag. -/
structure Req where
  id : Nat
  requireAuth : Bool
  retry : Bool
deriving DecidableEq

/-- What the synchronous part of the response-error interceptor did with
the rejection. -/
inductive Hand where
  /-- `Promise.reject(error)`: the original error propagates unchanged
  (lines 96–98 and 154–155). -/
  | rejectOriginal
  /-- The request was pushed onto `failedQueue` to await the in-flight
  refresh (lines 103–112). -/
  | enqueued
  /-- `axios.post("/api/auth/refresh", { refreshToken })` was issued and is
  being awaited (line 124). -/
  | refreshIssued (refreshToken : String)
  /-- The refresh failed before any call was issued
  (`NO_REFRESH_TOKEN`, line 121): the catch block ran synchronously.
  Carries the outcomes of the drained queue and of the original request. -/
  | localRefreshFailure (queueOutcomes : List (Nat × Outcome)) (orig : Outcome)
deriving DecidableEq

/-- The catch block of the refresh attempt (lines 141–151): drain the queue
rejecting everything, clear both tokens, redirect to login, reset
`isRefreshing`, and reject with the refresh error. -/
def refreshCatch (st : St) (r : Req) (e : RErr) : St × Req × Hand :=
  let qOut := procQueue st.failedQueue (some e) none
  let st1 := { st with failedQueue := [] }
  let st2 := { st1 with store := ⟨none, none⟩ }
  let st3 := redirectToLogin st2
  ({ st3 with isRefreshing := false }, r, .localRefreshFailure qOut (.rejected e))

/-- The response-error interceptor (lines 92–156), synchronous part.
Given the state, the failing request's descriptor and the response status
(`none` when no response was received), it returns the new state, the
(possibly `_retry`-marked) request, and what was done with the rejection.
The `await` of the refresh call is represented by `Hand.refreshIssued`;
its continuation is `onRefreshSettled`. -/
def handle401 (st : St) (r : Req) (status : Option Nat) : St × Req × Hand :=
  if !r.requireAuth then (st, r, .rejectOriginal)
  else if status == some 401 && !r.retry then
    if st.isRefreshing then
      ({ st with failedQueue := st.failedQueue ++ [r.id] }, r, .enqueued)
    else
      let r' := { r with retry := true }
      let st1 := { st with isRefreshing := true }
      match st1.store.refresh with
      | some rt =>
          if rt ≠ "" then
            ({ st1 with refreshCalls := st1.refreshCalls + 1 }, r', .refreshIssued rt)
          else
            refreshCatch st1 r' RErr.noRefreshToken
      | none => refreshCatch st1 r' RErr.noRefreshToken
  else (st, r, .rejectOriginal)

/-- The continuation of the refresh `await` (lines 124–151 after the call
settles).  On success: persist `access_token` (and a truthy
`refresh_token`), update the instance default `Authorization` header, drain
the queue resolving with the new token, retry the original request with the
new token, reset `isRefreshing`.  On failure: the catch block (drain
rejecting, clear tokens, redirect, reject), then reset `isRefreshing`.
Returns the new state, the queued requests' outcomes (in queue order), and
the original request's outcome. -/
def onRefreshSettled (st : St) (res : RefreshResult) :
    St × List (Nat × Outcome) × Outcome :=
  match res with
  | .ok access newRefresh =>
      let store1 : Store :=
        { access := some access,
          refresh := if jsTruthyStr newRefresh then newRefresh else st.store.refresh }
      let qOut := procQueue st.failedQueue none (some access)
      ({ st with store := store1,
                 defaultAuth := some ("Bearer " ++ access),
                 failedQueue := [],
                 isRefreshing := false },
       qOut, .retryWith access)
  | .err e =>
      let qOut := procQueue st.failedQueue (some e) none
      let st1 := { st with failedQueue := [], store := ⟨none, none⟩ }
      let st2 := redirectToLogin st1
      ({ st2 with isRefreshing := false }, qOut, .rejected e)

/-- Sequential processing (single-threaded event loop) of a batch of
requests all rejecting with HTTP 401 while the refresh call, if any, has
not yet settled: each invocation of the interceptor runs `handle401` on the
state left by the previous one. -/
def run401s (st : St) : List Req → St × List Hand
  | [] => (st, [])
  | r :: rs =>
      let s := handle401 st r (some 401)
      let t := run401s s.1 rs
      (t.1, s.2.2 :: t.2)

/-! ## Query-string serialization (lines 190–202)

`callAPI` drops entries whose value `== null` (i.e. `null`/`undefined`),
then serializes the rest with `qs.stringify(filtered, { arrayFormat:
"brackets", encode: false })` and prefixes `?` — but only when entries
remain.  With `encode: false`, `qs` performs no URL-encoding at all; with
`arrayFormat: "brackets"` an array value `[a, b]` serializes as
`k[]=a&k[]=b`; parts are joined with `&`. -/

/-- A query-parameter value: `null`/`undefined`, a scalar (string or
number), or an array of scalars (already in string form). -/
inductive QVal where
  | vnull
  | vstr (s : String)
  | vnum (n : Int)
  | varr (elems : List String)
deriving DecidableEq

/-- The `v == null` test (matches `null` and `undefined`). -/
def isNullV : QVal → Bool
  | .vnull => true
  | _ => false

/-- The `k=v` parts `qs.stringify` (with `encode: false`, bracket
arrayFormat) produces for one entry: scalars give one part, arrays one
bracketed part per element (so an empty array contributes nothing). -/
def qsEntry (k : String) (v : QVal) : List String :=
  match v with
  | .vnull => [k ++ "="]
  | .vstr s => [k ++ "=" ++ s]
  | .vnum n => [k ++ "=" ++ toString n]
  | .varr es => es.map fun x => k ++ "[]=" ++ x

/-- `Array.prototype.join("&")`. -/
def joinAmp : List String → String
  | [] => ""
  | [x] => x
  | x :: xs => x ++ "&" ++ joinAmp xs

/-- `qs.stringify(entries, { arrayFormat: "brackets", encode: false })`. -/
def qsStringify (entries : List (String × QVal)) : String :=
  joinAmp ((entries.map fun p => qsEntry p.1 p.2).flatten)

/-- Lines 190–202: the query string appended to the endpoint (including
the leading `?`), empty when the map is empty or nothing survives the
null-filter. -/
def buildQuery (queryParams : List (String × QVal)) : String :=
  if queryParams.length > 0 then
    let filtered := queryParams.filter fun p => !isNullV p.2
    if filtered.length > 0 then "?" ++ qsStringify filtered else ""
  else ""

/-! ## Path-parameter substitution (lines 177–188)

For each `[key, value]` of `pathParams` with `value != null`, the code runs
`endpoint.replace(new RegExp(":" + key + "\\b", "g"),
encodeURIComponent(String(value)))`.  We model `encodeURIComponent`
(UTF-8 percent-encoding leaving the unreserved set alone), JavaScript's
`\b` word boundary (`\w = [A-Za-z0-9_]`), and global left-to-right
non-rescanning regex replacement, for keys made of word characters (the
regex is built by splicing the key in literally, so only such keys denote
the literal-key pattern). -/

/-- JavaScript regex `\w`: ASCII letters, digits, underscore. -/
def isWordChar (c : Char) : Bool := c.isAlphanum || c == '_'

/-- The characters `encodeURIComponent` leaves unescaped:
`A–Z a–z 0–9 - _ . ! ~ * ' ( )`. -/
def isUnreserved (c : Char) : Bool :=
  c.isAlphanum || c == '-' || c == '_' || c == '.' || c == '!' || c == '~' ||
    c == '*' || c.toNat == 39 || c == '(' || c == ')'

/-- UTF-8 encoding of a code point, as a list of byte values. -/
def utf8Bytes (n : Nat) : List Nat :=
  if n < 128 then [n]
  else if n < 2048 then [192 + n / 64, 128 + n % 64]
  else if n < 65536 then [224 + n / 4096, 128 + (n / 64) % 64, 128 + n % 64]
  else [240 + n / 262144, 128 + (n / 4096) % 64, 128 + (n / 64) % 64, 128 + n % 64]

/-- Uppercase hexadecimal digit (for `n < 16`). -/
def hexDigit : Nat → Char
  | 0 => '0' | 1 => '1' | 2 => '2' | 3 => '3'
  | 4 => '4' | 5 => '5' | 6 => '6' | 7 => '7'
  | 8 => '8' | 9 => '9' | 10 => 'A' | 11 => 'B'
  | 12 => 'C' | 13 => 'D' | 14 => 'E' | _ => 'F'

/-- `%HH` escape of one byte. -/
def pctByte (b : Nat) : List Char := ['%', hexDigit (b / 16), hexDigit (b % 16)]

/-- `encodeURIComponent` on one character. -/
def encCharList (c : Char) : List Char :=
  if isUnreserved c then [c] else (utf8Bytes c.toNat).flatMap pctByte

/-- `encodeURIComponent`. -/
def encodeURIComponent (s : String) : String :=
  ⟨s.toList.flatMap encCharList⟩

/-- Does `pat` start the list `s`? -/
def startsWith : List Char → List Char → Bool
  | [], _ => true
  | _ :: _, [] => false
  | p :: ps, c :: cs => p == c && startsWith ps cs

/-- JavaScript `\b` after a word character: satisfied at end of input or
before a non-word character. -/
def boundaryOk : List Char → Bool
  | [] => true
  | c :: _ => !isWordChar c

/-- `String.prototype.replace` with the global pattern `:key\b` (for a key
of word characters) and a literal replacement: left-to-right scan, each
match consumed without rescanning the replacement.  Structural recursion
on a fuel bound (any fuel at least the input length computes the scan;
see `substOneAuxF_fuel`). -/
def substOneAuxF (key rep : List Char) : Nat → List Char → List Char
  | _, [] => []
  | 0, l => l
  | fuel + 1, c :: cs =>
      if c == ':' && startsWith key cs && boundaryOk (List.drop key.length cs) then
        rep ++ substOneAuxF key rep fuel (List.drop key.length cs)
      else
        c :: substOneAuxF key rep fuel cs

/-- The scan with exactly enough fuel. -/
def substOneAux (key rep l : List Char) : List Char :=
  substOneAuxF key rep l.length l

/-- `endpoint.replace(new RegExp(":" + key + "\\b", "g"), rep)`. -/
def substOne (key rep s : String) : String :=
  ⟨substOneAux key.toList rep.toList s.toList⟩

/-- A path-parameter value: `string | number | boolean` (the non-null
cases of the `PathParameter` index type, line 16). -/
inductive PVal where
  | str (s : String)
  | num (n : Int)
  | bool (b : Bool)
deriving DecidableEq

/-- JavaScript `String(value)` on a path-parameter value. -/
def pvToString : PVal → String
  | .str s => s
  | .num n => toString n
  | .bool b => if b then "true" else "false"

/-- Lines 177–188: fold the null-filtered substitutions over the endpoint
template in map-entry order. -/
def substPath (endpoint : String) (params : List (String × Option PVal)) : String :=
  params.foldl
    (fun acc p =>
      match p.2 with
      | some v => substOne p.1 (encodeURIComponent (pvToString v)) acc
      | none => acc)
    endpoint

/-! ### Declarative view of templates

To state what substitution does, a template is viewed as a sequence of
literal segments and `:key` placeholders; `render` flattens the view back
into the raw template string the source operates on. -/

/-- A template segment: literal text or a `:key` placeholder. -/
inductive Seg where
  | lit (s : String)
  | hole (k : String)
deriving DecidableEq

/-- Flatten a segment list to the underlying character list. -/
def renderL : List Seg → List Char
  | [] => []
  | .lit s :: rest => s.toList ++ renderL rest
  | .hole k :: rest => ':' :: (k.toList ++ renderL rest)

/-- Flatten a segment list to the template string. -/
def render (segs : List Seg) : String := ⟨renderL segs⟩

/-- A usable placeholder key: nonempty and made of word characters. -/
def keyOK (k : String) : Bool := !k.toList.isEmpty && k.toList.all isWordChar

/-- The segment list starts with a non-word character (or is empty): what
a placeholder must be followed by for its `\b` to hold robustly. -/
def headNonWord : List Seg → Bool
  | [] => true
  | .lit s :: _ =>
      match s.toList with
      | [] => false
      | c :: _ => !isWordChar c
  | .hole _ :: _ => false

/-- The literal contains no `:` (so it can spawn no placeholder). -/
def litNoColon (s : String) : Bool := s.toList.all fun c => !(c == ':')

/-- Well-formed template view: literals are `:`-free, keys usable, and
each placeholder is followed by end-of-template or a literal opening with
a non-word character. -/
def wfSegs : List Seg → Bool
  | [] => true
  | .lit s :: rest => litNoColon s && wfSegs rest
  | .hole k :: rest => keyOK k && headNonWord rest && wfSegs rest

/-- Replace every `hole k` by the literal `rep` (the declarative effect of
one whole-template substitution). -/
def substSegs (k rep : String) (segs : List Seg) : List Seg :=
  segs.map fun sg =>
    match sg with
    | .hole k' => if k' = k then .lit rep else .hole k'
    | .lit s => .lit s

/-- One map entry applied to the template view: a non-null value
substitutes its encoded string form, a null entry does nothing. -/
def applyParam (segs : List Seg) (p : String × Option PVal) : List Seg :=
  match p.2 with
  | some v => substSegs p.1 (encodeURIComponent (pvToString v)) segs
  | none => segs

/-- First binding of `k` in the parameter list that is non-null. -/
def lookupParam (params : List (String × Option PVal)) (k : String) : Option PVal :=
  match params with
  | [] => none
  | (k', v) :: rest =>
      if k' = k then
        match v with
        | some x => some x
        | none => none
      else lookupParam rest k

/-- The declarative substitution result: each placeholder bound to a
non-null value becomes its encoded value, everything else is untouched. -/
def specSubst (params : List (String × Option PVal)) (segs : List Seg) : List Seg :=
  segs.map fun sg =>
    match sg with
    | .hole k =>
        match lookupParam params k with
        | some v => .lit (encodeURIComponent (pvToString v))
        | none => .hole k
    | .lit s => .lit s

/-! # Theorems -/

/-! ## C5: error classification order and fields -/

/-- **C5.** For every failed call, the classifier produces exactly one
`ClientError` kind by testing the branches in the fixed source order:
a cancellation name yields `Aborted` with code `ABORTED` and no status;
otherwise a received response yields `ServerError` with `httpStatus` the
response status, `serverPayload` the body, `serverCode` the body's `code`
field when present, and message from the body's `message` field or the
generic fallback; otherwise a sent request with no response yields
`NetworkError` with code `NETWORK_ERROR` and no status; any remaining
failure yields `SetupError` with code `SETUP_ERROR`. -/
theorem c5_error_classifier (e : AxErr) :
    ((e.name = "CanceledError" ∨ e.name = "AbortError") →
      branchOf e = ClientKind.aborted ∧
      classify e = ⟨"Yêu cầu đã bị hủy", none, none, some "ABORTED"⟩) ∧
    (¬(e.name = "CanceledError" ∨ e.name = "AbortError") →
      ∀ resp, e.response = some resp →
        branchOf e = ClientKind.serverError ∧
        (classify e).status = some resp.status ∧
        (classify e).data = resp.data ∧
        (classify e).code = resp.data.bind RespBody.code ∧
        (∀ b m, resp.data = some b → b.message = some m → m ≠ "" →
          (classify e).message = m) ∧
        (resp.data.bind RespBody.message = none → (classify e).message = "API Error")) ∧
    (¬(e.name = "CanceledError" ∨ e.name = "AbortError") → e.response = none →
      e.hasRequest = true →
      branchOf e = ClientKind.networkError ∧
      classify e = ⟨"Không thể kết nối đến máy chủ", none, none, some "NETWORK_ERROR"⟩) ∧
    (¬(e.name = "CanceledError" ∨ e.name = "AbortError") → e.response = none →
      e.hasRequest = false →
      branchOf e = ClientKind.setupError ∧
      classify e = ⟨"Lỗi cấu hình API", none, none, some "SETUP_ERROR"⟩) := by
  refine ⟨?_, ?_, ?_, ?_⟩
  · intro h
    constructor <;> simp [branchOf, classify, h]
  · intro h resp hresp
    refine ⟨?_, ?_, ?_, ?_, ?_, ?_⟩
    · simp [branchOf, h, hresp]
    · simp [classify, h, hresp]
    · simp [classify, h, hresp]
    · simp [classify, h, hresp]
    · intro b m hb hm hne
      simp [classify, h, hresp, hb, hm, jsOrStr, hne]
    · intro hmsg
      simp [classify, h, hresp, hmsg, jsOrStr]
  · intro h hresp hreq
    constructor <;> simp [branchOf, classify, h, hresp, hreq]
  · intro h hresp hreq
    constructor <;> simp [branchOf, classify, h, hresp, hreq]

/-- Witness for C5: a `CanceledError`-shaped rejection is classified as
aborted. -/
theorem c5_error_classifier_witness :
    branchOf ⟨"CanceledError", none, none, false⟩ = ClientKind.aborted ∧
    classify ⟨"CanceledError", none, none, false⟩
      = ⟨"Yêu cầu đã bị hủy", none, none, some "ABORTED"⟩ :=
  (c5_error_classifier ⟨"CanceledError", none, none, false⟩).1 (Or.inl rfl)

/-! ## C9: cancellation classification (explicit abort vs timeout) -/

/-- **C9, counterexample.** The claim states that a call cancelled by the
request's timeout firing also rejects with kind `Aborted`/code `ABORTED`.
The transport's timeout rejection (`axiosTimeoutError`: name
`"AxiosError"`, code `"ECONNABORTED"`, request sent, no response) does not
carry a cancellation name, so the classifier's network branch fires
instead: the caller sees `NETWORK_ERROR`, not `ABORTED`. -/
theorem c9_counterexample :
    (classify axiosTimeoutError).code = some "NETWORK_ERROR" ∧
    (classify axiosTimeoutError).code ≠ some "ABORTED" ∧
    branchOf axiosTimeoutError ≠ ClientKind.aborted := by
  refine ⟨?_, ?_, ?_⟩ <;> decide

/-- **C9, amended.** A call cancelled by the caller's cancellation token
(the transport rejects with name `CanceledError`, or `AbortError`) is
classified as `Aborted` with code `ABORTED` and no HTTP status, and no
other classifier branch fires; a call ended by the request timeout,
however, is classified by the network branch as `NETWORK_ERROR`. -/
theorem c9_amended_abort_classification (e : AxErr)
    (h : e.name = "CanceledError" ∨ e.name = "AbortError") :
    classify e = ⟨"Yêu cầu đã bị hủy", none, none, some "ABORTED"⟩ ∧
    branchOf e = ClientKind.aborted ∧
    (classify e).status = none ∧
    classify axiosTimeoutError
      = ⟨"Không thể kết nối đến máy chủ", none, none, some "NETWORK_ERROR"⟩ := by
  refine ⟨?_, ?_, ?_, by decide⟩ <;> simp [classify, branchOf, h]

/-- Witness for the amended C9 at a concrete `AbortError` rejection. -/
theorem c9_amended_abort_classification_witness :
    classify ⟨"AbortError", none, none, false⟩
      = ⟨"Yêu cầu đã bị hủy", none, none, some "ABORTED"⟩ ∧
    branchOf ⟨"AbortError", none, none, false⟩ = ClientKind.aborted ∧
    (classify ⟨"AbortError", none, none, false⟩).status = none ∧
    classify axiosTimeoutError
      = ⟨"Không thể kết nối đến máy chủ", none, none, some "NETWORK_ERROR"⟩ :=
  c9_amended_abort_classification ⟨"AbortError", none, none, false⟩ (Or.inr rfl)

/-! ## C10: query serialization is unencoded (encode: false) -/

/-- **C10.** The query string is built with URL-encoding disabled: a
string entry serializes verbatim as `k=v`, so reserved characters such as
`&` and `=` inside values appear literally in the request URL — unlike
path-parameter values, which go through `encodeURIComponent`. -/
theorem c10_query_unencoded (k s : String) :
    qsStringify [(k, QVal.vstr s)] = k ++ "=" ++ s ∧
    buildQuery [("a", QVal.vstr "x&y=z")] = "?a=x&y=z" ∧
    encodeURIComponent "x&y=z" = "x%26y%3Dz" := by
  refine ⟨rfl, by decide, by decide⟩

/-! ## C7: null filtering and bracket serialization of query maps -/

/-- **C7.** Entries whose value is `null`/`undefined` are excluded from
the query string (filtering them away first changes nothing); when no
entries remain after filtering — including the all-null map and the empty
map — the URL carries no query string at all; and array-valued entries
serialize with bracket notation `k[]=a&k[]=b`. -/
theorem c7_query_null_filtering (qp : List (String × QVal)) (k : String)
    (es : List String) :
    buildQuery qp = buildQuery (qp.filter fun p => !isNullV p.2) ∧
    ((∀ p ∈ qp, isNullV p.2 = true) → buildQuery qp = "") ∧
    buildQuery [] = "" ∧
    qsEntry k (QVal.varr es) = es.map (fun x => k ++ "[]=" ++ x) ∧
    buildQuery [("t", QVal.varr ["a", "b"])] = "?t[]=a&t[]=b" := by
  refine ⟨?_, ?_, rfl, rfl, by decide⟩
  · cases qp with
    | nil => rfl
    | cons x xs =>
        have hid : ((x :: xs).filter fun p => !isNullV p.2).filter (fun p => !isNullV p.2)
            = (x :: xs).filter fun p => !isNullV p.2 := by
          rw [List.filter_filter]
          simp
        unfold buildQuery
        rw [hid]
        by_cases h : 0 < ((x :: xs).filter fun p => !isNullV p.2).length
        · simp [h]
        · simp [h]
  · intro h
    have hnil : (qp.filter fun p => !isNullV p.2) = [] := by
      rw [List.filter_eq_nil_iff]
      intro a ha
      simp [h a ha]
    cases qp with
    | nil => rfl
    | cons x xs =>
        unfold buildQuery
        rw [hnil]
        simp

/-- Witness for C7: an all-null query map yields no query string at all. -/
theorem c7_query_null_filtering_witness :
    buildQuery [("x", QVal.vnull)] = "" :=
  (c7_query_null_filtering [("x", QVal.vnull)] "k" []).2.1 (by decide)

/-! ## C8: an already-retried request bypasses the refresh machinery -/

/-- **C8.** A 401 on an authenticated request whose `_retry` flag is
already set bypasses the refresh state machine entirely — the interceptor
changes no state, issues no refresh call, and rejects with the original
error — and the classifier then returns it as a server error with
`httpStatus` 401. -/
theorem c8_retried_request_bypasses_refresh (st : St) (r : Req)
    (h1 : r.requireAuth = true) (h2 : r.retry = true) :
    handle401 st r (some 401) = (st, r, Hand.rejectOriginal) ∧
    (∀ e : AxErr, ¬(e.name = "CanceledError" ∨ e.name = "AbortError") →
      ∀ body, e.response = some ⟨401, body⟩ →
        branchOf e = ClientKind.serverError ∧ (classify e).status = some 401) := by
  constructor
  · simp [handle401, h1, h2]
  · intro e he body hresp
    constructor
    · simp [branchOf, he, hresp]
    · simp [classify, he, hresp]

/-- Witness for C8: a concrete retried request is rejected unchanged. -/
theorem c8_retried_request_bypasses_refresh_witness :
    handle401 ⟨true, [5], ⟨some "a", some "r"⟩, none, "/p", 0, 0⟩ ⟨9, true, true⟩ (some 401)
      = (⟨true, [5], ⟨some "a", some "r"⟩, none, "/p", 0, 0⟩, ⟨9, true, true⟩,
         Hand.rejectOriginal) :=
  (c8_retried_request_bypasses_refresh _ _ rfl rfl).1

/-! ## C2: requests not marked requiresAuth -/

/-- **C2, counterexample.** The claim says a request not marked
`requiresAuth` never carries a bearer `Authorization` header.  After one
successful refresh episode, however, the interceptor has written the new
bearer token into the instance-wide default headers (line 132), and axios
merges the defaults into every subsequent request — including requests
with `requireAuth = false`.  Concretely: from an idle state, one
authenticated request receives a 401, the refresh succeeds with access
token `"t2"`, and a later non-auth request (no per-request Authorization
header, no stored token consulted by the interceptor) goes out carrying
`Bearer t2`. -/
theorem c2_counterexample :
    outgoingAuth
      ((onRefreshSettled
          (handle401 ⟨false, [], ⟨some "t1", some "r1"⟩, none, "/home", 0, 0⟩
            ⟨1, true, false⟩ (some 401)).1
          (RefreshResult.ok "t2" none)).1.defaultAuth)
      none false
      ((onRefreshSettled
          (handle401 ⟨false, [], ⟨some "t1", some "r1"⟩, none, "/home", 0, 0⟩
            ⟨1, true, false⟩ (some 401)).1
          (RefreshResult.ok "t2" none)).1.store.access)
      = some "Bearer t2" := by decide

/-- **C2, amended.** The request interceptor never injects a bearer header
into a request not marked `requireAuth`: its outgoing `Authorization`
header is exactly the default/per-request merge, and in particular absent
while the instance default header is unset and the request supplies none.
Moreover a failure response of any status (including 401) on a non-auth
request never touches the refresh state machine: the interceptor leaves
the state unchanged and rejects the original error immediately.
(After a successful refresh the updated instance default header does reach
subsequent non-auth requests — see the counterexample.) -/
theorem c2_amended_no_auth_requests (defA cfgA tok : Option String) (st : St) (r : Req)
    (status : Option Nat) (h : r.requireAuth = false) :
    outgoingAuth defA cfgA false tok = mergeHeader defA cfgA ∧
    (defA = none → cfgA = none → outgoingAuth defA cfgA false tok = none) ∧
    handle401 st r status = (st, r, Hand.rejectOriginal) := by
  refine ⟨?_, ?_, ?_⟩
  · cases tok <;> rfl
  · intro h1 h2
    subst h1; subst h2
    cases tok <;> rfl
  · simp [handle401, h]

/-- Witness for the amended C2: a concrete non-auth request with a 401 is
rejected with no state change and carries no Authorization header. -/
theorem c2_amended_no_auth_requests_witness :
    outgoingAuth none none false none = none ∧
    handle401 ⟨false, [], ⟨none, none⟩, none, "/p", 0, 0⟩ ⟨3, false, false⟩ (some 401)
      = (⟨false, [], ⟨none, none⟩, none, "/p", 0, 0⟩, ⟨3, false, false⟩,
         Hand.rejectOriginal) :=
  ⟨(c2_amended_no_auth_requests none none none
      ⟨false, [], ⟨none, none⟩, none, "/p", 0, 0⟩ ⟨3, false, false⟩ (some 401) rfl).2.1 rfl rfl,
   (c2_amended_no_auth_requests none none none
      ⟨false, [], ⟨none, none⟩, none, "/p", 0, 0⟩ ⟨3, false, false⟩ (some 401) rfl).2.2⟩

/-! ## C3: effects of a successful refresh episode -/

/-- **C3.** When the refresh call succeeds, the new access token is
persisted (and the new refresh token, when the response contains a truthy
one), the instance default `Authorization` header becomes the new bearer
token, every queued continuation is resolved with the new access token —
so each queued request is reissued with that token — and the original
triggering request is reissued with the new token. -/
theorem c3_refresh_success (st : St) (access : String) (nr : Option String) :
    (onRefreshSettled st (.ok access nr)).1.store.access = some access ∧
    (∀ s, nr = some s → s ≠ "" →
      (onRefreshSettled st (.ok access nr)).1.store.refresh = some s) ∧
    (nr = none → (onRefreshSettled st (.ok access nr)).1.store.refresh = st.store.refresh) ∧
    (onRefreshSettled st (.ok access nr)).1.defaultAuth = some ("Bearer " ++ access) ∧
    (access ≠ "" →
      (onRefreshSettled st (.ok access nr)).2.1
        = st.failedQueue.map fun i => (i, Outcome.retryWith access)) ∧
    (onRefreshSettled st (.ok access nr)).2.2 = Outcome.retryWith access ∧
    (onRefreshSettled st (.ok access nr)).1.isRefreshing = false ∧
    (onRefreshSettled st (.ok access nr)).1.failedQueue = [] := by
  refine ⟨rfl, ?_, ?_, rfl, ?_, rfl, rfl, rfl⟩
  · intro s hs hne
    subst hs
    simp [onRefreshSettled, jsTruthyStr, hne]
  · intro hn
    subst hn
    simp [onRefreshSettled, jsTruthyStr]
  · intro h
    simp [onRefreshSettled, procQueue, h]

/-- Witness for C3 at a concrete successful refresh with a new refresh
token. -/
theorem c3_refresh_success_witness :
    (onRefreshSettled ⟨true, [7, 8], ⟨some "old", some "r1"⟩, none, "/p", 0, 1⟩
        (RefreshResult.ok "t2" (some "r2"))).1.store.refresh = some "r2" :=
  (c3_refresh_success ⟨true, [7, 8], ⟨some "old", some "r1"⟩, none, "/p", 0, 1⟩
    "t2" (some "r2")).2.1 "r2" rfl (by decide)

/-! ## C4: effects of a failed refresh episode -/

/-- **C4.** When the refresh call fails (including the absent-refresh-token
case), every queued continuation is rejected with the refresh error, both
stored tokens are cleared, a redirect to `/login` is triggered only when
the current location is not already `/login`, the refresh state returns to
idle, and the original request's failure propagates to its caller.  The
final conjunct covers the absent-token case, where the same catch block
runs synchronously inside the interceptor. -/
theorem c4_refresh_failure (st : St) (e : RErr) (st2 : St) (r : Req)
    (h1 : st2.isRefreshing = false) (h2 : r.requireAuth = true) (h3 : r.retry = false)
    (h4 : st2.store.refresh = none) :
    (onRefreshSettled st (.err e)).2.1
      = st.failedQueue.map (fun i => (i, Outcome.rejected e)) ∧
    (onRefreshSettled st (.err e)).1.store = ⟨none, none⟩ ∧
    (st.locationPath ≠ "/login" →
      (onRefreshSettled st (.err e)).1.locationPath = "/login" ∧
      (onRefreshSettled st (.err e)).1.redirects = st.redirects + 1) ∧
    (st.locationPath = "/login" →
      (onRefreshSettled st (.err e)).1.redirects = st.redirects) ∧
    (onRefreshSettled st (.err e)).1.isRefreshing = false ∧
    (onRefreshSettled st (.err e)).2.2 = Outcome.rejected e ∧
    ((handle401 st2 r (some 401)).1.store = ⟨none, none⟩ ∧
     (handle401 st2 r (some 401)).1.isRefreshing = false ∧
     (st2.locationPath ≠ "/login" →
       (handle401 st2 r (some 401)).1.redirects = st2.redirects + 1) ∧
     (handle401 st2 r (some 401)).2.2
       = Hand.localRefreshFailure
           (procQueue st2.failedQueue (some RErr.noRefreshToken) none)
           (Outcome.rejected RErr.noRefreshToken)) := by
  refine ⟨rfl, ?_, ?_, ?_, rfl, rfl, ?_, ?_, ?_, ?_⟩
  · simp only [onRefreshSettled, redirectToLogin]
    split <;> rfl
  · intro h
    constructor <;> simp [onRefreshSettled, redirectToLogin, h]
  · intro h
    simp [onRefreshSettled, redirectToLogin, h]
  · simp only [handle401, h1, h2, h3, h4]
    simp [refreshCatch, redirectToLogin]
    split <;> rfl
  · simp only [handle401, h1, h2, h3, h4]
    simp [refreshCatch, redirectToLogin]
  · intro h
    simp only [handle401, h1, h2, h3, h4]
    simp [refreshCatch, redirectToLogin, h]
  · simp only [handle401, h1, h2, h3, h4]
    simp [refreshCatch]

/-- Witness for C4: a failed refresh with five queued requests clears the
tokens and performs exactly one redirect away from `/home`. -/
theorem c4_refresh_failure_witness :
    (onRefreshSettled ⟨true, [1, 2, 3, 4, 5], ⟨some "a", some "r"⟩, none, "/home", 0, 1⟩
        (RefreshResult.err (RErr.httpFailure 401))).1.locationPath = "/login" ∧
    (onRefreshSettled ⟨true, [1, 2, 3, 4, 5], ⟨some "a", some "r"⟩, none, "/home", 0, 1⟩
        (RefreshResult.err (RErr.httpFailure 401))).1.redirects = 0 + 1 :=
  (c4_refresh_failure ⟨true, [1, 2, 3, 4, 5], ⟨some "a", some "r"⟩, none, "/home", 0, 1⟩
    (RErr.httpFailure 401) ⟨false, [], ⟨some "a", none⟩, none, "/home", 0, 0⟩
    ⟨1, true, false⟩ rfl rfl rfl rfl).2.2.1 (by decide)

/-! ## C1: single-flight refresh with request queuing -/

/-- While a refresh is in flight, every further authenticated,
not-yet-retried request that rejects with 401 is appended to the pending
queue (in arrival order) and no further refresh call is issued. -/
theorem run401s_while_refreshing (st : St) (rs : List Req)
    (h : st.isRefreshing = true)
    (hall : ∀ r ∈ rs, r.requireAuth = true ∧ r.retry = false) :
    run401s st rs
      = ({ st with failedQueue := st.failedQueue ++ rs.map Req.id },
         rs.map fun _ => Hand.enqueued) := by
  induction rs generalizing st with
  | nil => simp [run401s]
  | cons r rs ih =>
      have hr := hall r (by simp)
      have hstep : handle401 st r (some 401)
          = ({ st with failedQueue := st.failedQueue ++ [r.id] }, r, .enqueued) := by
        simp [handle401, hr.1, hr.2, h]
      simp only [run401s, hstep]
      rw [ih { st with failedQueue := st.failedQueue ++ [r.id] } h
          (fun r' hr' => hall r' (by simp [hr']))]
      simp

/-- **C1.** From an idle state with an empty queue and a stored (truthy)
refresh token, a batch of concurrent authenticated requests that all
reject with 401 triggers exactly one refresh call — issued by the first
request observed while the state is idle — and every later request of the
batch is enqueued, not independently retried; when the single refresh call
settles, all queued requests and the original one resolve with the
refresh's success outcome (reissue with the new token) or reject with its
failure. -/
theorem c1_single_flight (st : St) (r0 : Req) (rest : List Req) (rt : String)
    (h1 : st.isRefreshing = false) (h2 : st.failedQueue = [])
    (h3 : st.store.refresh = some rt) (h4 : rt ≠ "")
    (h5 : r0.requireAuth = true) (h6 : r0.retry = false)
    (h7 : ∀ r ∈ rest, r.requireAuth = true ∧ r.retry = false) :
    (run401s st (r0 :: rest)).1.refreshCalls = st.refreshCalls + 1 ∧
    (run401s st (r0 :: rest)).1.isRefreshing = true ∧
    (run401s st (r0 :: rest)).1.failedQueue = rest.map Req.id ∧
    (run401s st (r0 :: rest)).2
      = Hand.refreshIssued rt :: rest.map (fun _ => Hand.enqueued) ∧
    (∀ t nr, t ≠ "" →
      (onRefreshSettled (run401s st (r0 :: rest)).1 (.ok t nr)).2.1
          = rest.map (fun r => (r.id, Outcome.retryWith t)) ∧
      (onRefreshSettled (run401s st (r0 :: rest)).1 (.ok t nr)).2.2
          = Outcome.retryWith t) ∧
    (∀ e, (onRefreshSettled (run401s st (r0 :: rest)).1 (.err e)).2.1
          = rest.map (fun r => (r.id, Outcome.rejected e)) ∧
      (onRefreshSettled (run401s st (r0 :: rest)).1 (.err e)).2.2
          = Outcome.rejected e) := by
  have hstep : handle401 st r0 (some 401)
      = ({ st with isRefreshing := true, refreshCalls := st.refreshCalls + 1 },
         { r0 with retry := true }, .refreshIssued rt) := by
    simp [handle401, h1, h5, h6, h3, h4]
  have hrun : run401s st (r0 :: rest)
      = ({ st with
            isRefreshing := true,
            refreshCalls := st.refreshCalls + 1,
            failedQueue := rest.map Req.id },
         Hand.refreshIssued rt :: rest.map fun _ => Hand.enqueued) := by
    simp only [run401s, hstep]
    rw [run401s_while_refreshing
        { st with isRefreshing := true, refreshCalls := st.refreshCalls + 1 } rest rfl h7]
    simp [h2]
  refine ⟨by simp [hrun], by simp [hrun], by simp [hrun], by simp [hrun], ?_, ?_⟩
  · intro t nr ht
    constructor
    · simp [hrun, onRefreshSettled, procQueue, ht, Function.comp]
    · simp [hrun, onRefreshSettled]
  · intro e
    constructor
    · simp [hrun, onRefreshSettled, procQueue, Function.comp]
    · simp [hrun, onRefreshSettled]

/-- Witness for C1: three concurrent 401s from idle issue exactly one
refresh call. -/
theorem c1_single_flight_witness :
    (run401s ⟨false, [], ⟨some "a", some "r"⟩, none, "/home", 0, 0⟩
        [⟨0, true, false⟩, ⟨1, true, false⟩, ⟨2, true, false⟩]).1.refreshCalls
      = (⟨false, [], ⟨some "a", some "r"⟩, none, "/home", 0, 0⟩ : St).refreshCalls + 1 :=
  (c1_single_flight ⟨false, [], ⟨some "a", some "r"⟩, none, "/home", 0, 0⟩
    ⟨0, true, false⟩ [⟨1, true, false⟩, ⟨2, true, false⟩] "r"
    rfl rfl rfl (by decide) rfl rfl (by decide)).1

/-! ## C6: path-parameter substitution

Helper lemmas characterizing the replacement scan `substOneAux` on
templates viewed as literal/placeholder segment lists. -/

/-- The scan result does not depend on the fuel, as long as the fuel
covers the input length. -/
theorem substOneAuxF_fuel (key rep : List Char) (f1 f2 : Nat) (l : List Char)
    (h1 : l.length ≤ f1) (h2 : l.length ≤ f2) :
    substOneAuxF key rep f1 l = substOneAuxF key rep f2 l := by
  induction f1 generalizing f2 l with
  | zero =>
      cases l with
      | nil => cases f2 <;> rfl
      | cons c cs => simp at h1
  | succ f ih =>
      cases l with
      | nil => cases f2 <;> rfl
      | cons c cs =>
          cases f2 with
          | zero => simp at h2
          | succ f2' =>
              simp only [substOneAuxF]
              by_cases hcond :
                  (c == ':' && startsWith key cs
                    && boundaryOk (List.drop key.length cs)) = true
              · rw [if_pos hcond, if_pos hcond]
                have hd : (List.drop key.length cs).length ≤ f := by
                  simp only [List.length_drop]
                  simp only [List.length_cons] at h1
                  omega
                have hd2 : (List.drop key.length cs).length ≤ f2' := by
                  simp only [List.length_drop]
                  simp only [List.length_cons] at h2
                  omega
                rw [ih f2' (List.drop key.length cs) hd hd2]
              · rw [if_neg hcond, if_neg hcond]
                have hc : cs.length ≤ f := by
                  simp only [List.length_cons] at h1
                  omega
                have hc2 : cs.length ≤ f2' := by
                  simp only [List.length_cons] at h2
                  omega
                rw [ih f2' cs hc hc2]

/-- Unfolding equation of the scan on a nonempty input. -/
theorem substOneAux_cons (key rep : List Char) (c : Char) (cs : List Char) :
    substOneAux key rep (c :: cs)
      = if c == ':' && startsWith key cs && boundaryOk (List.drop key.length cs) then
          rep ++ substOneAux key rep (List.drop key.length cs)
        else c :: substOneAux key rep cs := by
  unfold substOneAux
  simp only [List.length_cons, substOneAuxF]
  by_cases hcond :
      (c == ':' && startsWith key cs && boundaryOk (List.drop key.length cs)) = true
  · rw [if_pos hcond, if_pos hcond]
    rw [substOneAuxF_fuel key rep cs.length (List.drop key.length cs).length
        (List.drop key.length cs) (by simp only [List.length_drop]; omega) (le_refl _)]
  · rw [if_neg hcond, if_neg hcond]

/-- The scan passes over a colon-free chunk unchanged. -/
theorem substOneAux_append_no_colon (key rep l t : List Char)
    (h : ∀ c ∈ l, (c == ':') = false) :
    substOneAux key rep (l ++ t) = l ++ substOneAux key rep t := by
  induction l with
  | nil => rfl
  | cons c cs ih =>
      have hc := h c (by simp)
      rw [List.cons_append, substOneAux_cons]
      simp only [hc, Bool.false_and]
      rw [if_neg Bool.false_ne_true]
      rw [ih (fun c' hc' => h c' (by simp [hc']))]
      rfl

theorem startsWith_append_self (k t : List Char) : startsWith k (k ++ t) = true := by
  induction k with
  | nil => rfl
  | cons c cs ih => simp [startsWith, ih]

theorem startsWith_eq_take (p s : List Char) (h : startsWith p s = true) :
    List.take p.length s = p := by
  induction p generalizing s with
  | nil => simp
  | cons c cs ih =>
      cases s with
      | nil => simp [startsWith] at h
      | cons d ds =>
          simp only [startsWith, Bool.and_eq_true, beq_iff_eq] at h
          simp only [List.length_cons, List.take_succ_cons]
          rw [ih ds h.2, h.1]

/-- A word character is not a colon. -/
theorem wordChar_ne_colon (c : Char) (h : isWordChar c = true) : (c == ':') = false := by
  cases hc : c == ':' with
  | false => rfl
  | true =>
      exfalso
      rw [beq_iff_eq.mp hc] at h
      exact absurd h (by decide)

/-- At a `:` followed by a different word-character key `k'` (itself
followed by end or a non-word character), the pattern `:k\b` cannot
match. -/
theorem key_mismatch (k k' t : List Char)
    (hkw : ∀ c ∈ k, isWordChar c = true)
    (hk'w : ∀ c ∈ k', isWordChar c = true)
    (hne : k ≠ k')
    (ht : t = [] ∨ ∃ c cs, t = c :: cs ∧ isWordChar c = false) :
    (startsWith k (k' ++ t) && boundaryOk (List.drop k.length (k' ++ t))) = false := by
  cases hsw : startsWith k (k' ++ t) with
  | false => simp [hsw]
  | true =>
      simp only [Bool.true_and]
      have htake := startsWith_eq_take k (k' ++ t) hsw
      rcases Nat.lt_trichotomy k.length k'.length with hlt | heq | hgt
      · have hdrop : List.drop k.length (k' ++ t) = List.drop k.length k' ++ t := by
          rw [List.drop_append_eq_append_drop]
          have h0 : k.length - k'.length = 0 := by omega
          rw [h0, List.drop_zero]
        have hnenil : List.drop k.length k' ≠ [] := by
          intro hnil
          have := congrArg List.length hnil
          simp only [List.length_drop, List.length_nil] at this
          omega
        obtain ⟨c, cs, hcs⟩ := List.exists_cons_of_ne_nil hnenil
        have hcmem : c ∈ k' := by
          have hmem : c ∈ List.drop k.length k' := by rw [hcs]; simp
          exact List.drop_subset _ _ hmem
        rw [hdrop, hcs]
        simp only [List.cons_append, boundaryOk]
        rw [hk'w c hcmem]
        rfl
      · exfalso
        apply hne
        rw [← htake, List.take_append_eq_append_take]
        have h0 : k.length - k'.length = 0 := by omega
        rw [h0, List.take_zero, List.append_nil, heq, List.take_length]
      · exfalso
        have htk : k = k' ++ List.take (k.length - k'.length) t := by
          conv_lhs => rw [← htake]
          rw [List.take_append_eq_append_take]
          congr 1
          exact List.take_of_length_le (by omega)
        rcases ht with hnil | ⟨c, cs, hct, hcw⟩
        · rw [hnil] at htk
          simp at htk
          exact hne htk
        · rw [hct] at htk
          obtain ⟨m, hm⟩ : ∃ m, k.length - k'.length = m + 1 :=
            ⟨k.length - k'.length - 1, by omega⟩
          rw [hm, List.take_succ_cons] at htk
          have hcmem : c ∈ k := by rw [htk]; simp
          rw [hkw c hcmem] at hcw
          simp at hcw

/-- At `:key` with the boundary satisfied, the scan replaces the match and
continues after it. -/
theorem substOneAux_hit (k rep t : List Char) (hb : boundaryOk t = true) :
    substOneAux k rep (':' :: (k ++ t)) = rep ++ substOneAux k rep t := by
  rw [substOneAux_cons]
  have h2 : List.drop k.length (k ++ t) = t := by
    rw [List.drop_append_eq_append_drop]
    simp
  rw [h2, startsWith_append_self, hb]
  simp

/-- At a placeholder for a different key, the scan leaves the placeholder
intact and continues behind it. -/
theorem substOneAux_miss (k rep k' t : List Char)
    (hkw : ∀ c ∈ k, isWordChar c = true)
    (hk'w : ∀ c ∈ k', isWordChar c = true)
    (hne : k ≠ k')
    (ht : t = [] ∨ ∃ c cs, t = c :: cs ∧ isWordChar c = false) :
    substOneAux k rep (':' :: (k' ++ t)) = ':' :: (k' ++ substOneAux k rep t) := by
  rw [substOneAux_cons]
  have hm := key_mismatch k k' t hkw hk'w hne ht
  have hcond : (':' == ':' && startsWith k (k' ++ t)
      && boundaryOk (List.drop k.length (k' ++ t))) = false := by
    rw [Bool.and_assoc, hm, Bool.and_false]
  rw [hcond, if_neg Bool.false_ne_true]
  rw [substOneAux_append_no_colon k rep k' t
      (fun c hc => wordChar_ne_colon c (hk'w c hc))]

theorem headNonWord_renderL (segs : List Seg) (h : headNonWord segs = true) :
    renderL segs = [] ∨ ∃ c cs, renderL segs = c :: cs ∧ isWordChar c = false := by
  cases segs with
  | nil => exact Or.inl rfl
  | cons sg rest =>
      cases sg with
      | lit s =>
          cases hs : s.data with
          | nil => exact absurd h (by simp [headNonWord, String.toList, hs])
          | cons c cs' =>
              have hcw : isWordChar c = false := by
                have h2 := h
                simp [headNonWord, String.toList, hs] at h2
                exact h2
              exact Or.inr ⟨c, cs' ++ renderL rest,
                by simp [renderL, String.toList, hs], hcw⟩
      | hole k => simp [headNonWord] at h

theorem keyOK_spec (k : String) (h : keyOK k = true) :
    k.toList ≠ [] ∧ ∀ c ∈ k.toList, isWordChar c = true := by
  unfold keyOK at h
  simp only [Bool.and_eq_true] at h
  constructor
  · intro hnil
    rw [hnil] at h
    simp at h
  · intro c hc
    have := List.all_eq_true.mp h.2 c hc
    simpa using this

theorem string_toList_inj {a b : String} (h : a.toList = b.toList) : a = b := by
  cases a with
  | mk la =>
      cases b with
      | mk lb => exact congrArg String.mk h

theorem hexDigit_ne_colon (n : Nat) : (hexDigit n == ':') = false := by
  unfold hexDigit
  split <;> decide

theorem encCharList_ne_colon (c : Char) : ∀ c' ∈ encCharList c, (c' == ':') = false := by
  intro c' hc'
  unfold encCharList at hc'
  split at hc'
  case isTrue hu =>
      simp at hc'
      subst hc'
      cases hcc : c' == ':' with
      | false => rfl
      | true =>
          exfalso
          rw [beq_iff_eq.mp hcc] at hu
          exact absurd hu (by decide)
  case isFalse hu =>
      simp only [List.mem_flatMap] at hc'
      obtain ⟨b, _, hcb⟩ := hc'
      unfold pctByte at hcb
      simp at hcb
      rcases hcb with h1 | h1 | h1
      · rw [h1]; decide
      · rw [h1]; exact hexDigit_ne_colon _
      · rw [h1]; exact hexDigit_ne_colon _

theorem encodeURIComponent_ne_colon (s : String) :
    ∀ c ∈ (encodeURIComponent s).toList, (c == ':') = false := by
  intro c hc
  have hc2 : c ∈ s.toList.flatMap encCharList := hc
  rw [List.mem_flatMap] at hc2
  obtain ⟨a, _, hca⟩ := hc2
  exact encCharList_ne_colon a c hca

theorem litNoColon_encode (s : String) : litNoColon (encodeURIComponent s) = true := by
  unfold litNoColon
  rw [List.all_eq_true]
  intro c hc
  have := encodeURIComponent_ne_colon s c hc
  simp [this]

theorem headNonWord_substSegs (k rep : String) (rest : List Seg)
    (h : headNonWord rest = true) : headNonWord (substSegs k rep rest) = true := by
  cases rest with
  | nil => rfl
  | cons sg rest' =>
      cases sg with
      | lit s => simpa [substSegs, headNonWord] using h
      | hole k0 => simp [headNonWord] at h

/-- Well-formedness is preserved by substituting a colon-free literal for
a placeholder. -/
theorem wfSegs_substSegs (k rep : String) (hrep : litNoColon rep = true)
    (segs : List Seg) (hwf : wfSegs segs = true) :
    wfSegs (substSegs k rep segs) = true := by
  induction segs with
  | nil => rfl
  | cons sg rest ih =>
      cases sg with
      | lit s =>
          simp only [wfSegs, Bool.and_eq_true] at hwf
          simp only [substSegs, List.map_cons]
          simp only [wfSegs, Bool.and_eq_true]
          exact ⟨hwf.1, by simpa [substSegs] using ih hwf.2⟩
      | hole k0 =>
          simp only [wfSegs, Bool.and_eq_true] at hwf
          obtain ⟨⟨hk0, hhead⟩, hrest⟩ := hwf
          simp only [substSegs, List.map_cons]
          by_cases hkk : k0 = k
          · simp only [if_pos hkk]
            simp only [wfSegs, Bool.and_eq_true]
            exact ⟨hrep, by simpa [substSegs] using ih hrest⟩
          · simp only [if_neg hkk]
            simp only [wfSegs, Bool.and_eq_true]
            refine ⟨⟨hk0, ?_⟩, by simpa [substSegs] using ih hrest⟩
            have := headNonWord_substSegs k rep rest hhead
            simpa [substSegs] using this

/-- One whole-template substitution, on a well-formed template, is exactly
the declarative replacement of every placeholder for that key. -/
theorem substOne_renderL (k rep : String) (hkey : keyOK k = true)
    (segs : List Seg) (hwf : wfSegs segs = true) :
    substOneAux k.toList rep.toList (renderL segs) = renderL (substSegs k rep segs) := by
  induction segs with
  | nil => rfl
  | cons sg rest ih =>
      cases sg with
      | lit s =>
          simp only [wfSegs, Bool.and_eq_true] at hwf
          have hnc : ∀ c ∈ s.toList, (c == ':') = false := by
            intro c hc
            have h2 := List.all_eq_true.mp hwf.1 c hc
            simpa using h2
          simp only [renderL]
          rw [substOneAux_append_no_colon _ _ _ _ hnc, ih hwf.2]
          simp [substSegs, renderL]
      | hole k' =>
          simp only [wfSegs, Bool.and_eq_true] at hwf
          obtain ⟨⟨hk', hhead⟩, hrest⟩ := hwf
          have hkspec := keyOK_spec k hkey
          have hk'spec := keyOK_spec k' hk'
          have hbre := headNonWord_renderL rest hhead
          by_cases hkk : k' = k
          · subst hkk
            have hb : boundaryOk (renderL rest) = true := by
              rcases hbre with hnil | ⟨c, cs, hcs, hcw⟩
              · rw [hnil]; rfl
              · rw [hcs]; simp [boundaryOk, hcw]
            simp only [renderL]
            rw [substOneAux_hit k'.toList rep.toList (renderL rest) hb, ih hrest]
            simp [substSegs, renderL]
          · have hneL : k.toList ≠ k'.toList := fun hh => hkk (string_toList_inj hh).symm
            simp only [renderL]
            rw [substOneAux_miss k.toList rep.toList k'.toList (renderL rest)
                hkspec.2 hk'spec.2 hneL hbre, ih hrest]
            simp [substSegs, renderL, hkk]

/-- The string-level substitution fold equals the segment-level fold on
well-formed templates with word-character keys. -/
theorem substPath_render (segs : List Seg) (params : List (String × Option PVal))
    (hwf : wfSegs segs = true)
    (hk : ∀ p ∈ params, keyOK p.1 = true) :
    substPath (render segs) params = render (params.foldl applyParam segs) := by
  induction params generalizing segs with
  | nil => rfl
  | cons p rest ih =>
      cases hp : p.2 with
      | none =>
          have hskip : substPath (render segs) (p :: rest)
              = substPath (render segs) rest := by
            simp [substPath, hp]
          rw [hskip, ih segs hwf (fun q hq => hk q (by simp [hq]))]
          congr 1
          simp [List.foldl_cons, applyParam, hp]
      | some v =>
          have hstep : substOne p.1 (encodeURIComponent (pvToString v)) (render segs)
              = render (substSegs p.1 (encodeURIComponent (pvToString v)) segs) := by
            have hcore := substOne_renderL p.1 (encodeURIComponent (pvToString v))
                (hk p (by simp)) segs hwf
            exact congrArg String.mk hcore
          have hwf' : wfSegs (substSegs p.1 (encodeURIComponent (pvToString v)) segs)
              = true :=
            wfSegs_substSegs _ _ (litNoColon_encode _) segs hwf
          calc substPath (render segs) (p :: rest)
              = substPath
                  (render (substSegs p.1 (encodeURIComponent (pvToString v)) segs))
                  rest := by
                simp [substPath, hp, hstep]
            _ = render (rest.foldl applyParam
                  (substSegs p.1 (encodeURIComponent (pvToString v)) segs)) :=
                ih _ hwf' (fun q hq => hk q (by simp [hq]))
            _ = render ((p :: rest).foldl applyParam segs) := by
                simp [List.foldl_cons, applyParam, hp]

theorem lookupParam_of_not_mem (params : List (String × Option PVal)) (k : String)
    (h : k ∉ params.map Prod.fst) : lookupParam params k = none := by
  induction params with
  | nil => rfl
  | cons p rest ih =>
      obtain ⟨k', v⟩ := p
      simp only [List.map_cons, List.mem_cons, not_or] at h
      unfold lookupParam
      rw [if_neg (fun hh : k' = k => h.1 hh.symm)]
      exact ih h.2

/-- The parameter fold, for maps with distinct keys, acts pointwise on the
template view: each placeholder is looked up once. -/
theorem foldl_applyParam_eq_specSubst (params : List (String × Option PVal))
    (hnd : (params.map Prod.fst).Nodup) (segs : List Seg) :
    params.foldl applyParam segs = specSubst params segs := by
  induction params generalizing segs with
  | nil =>
      simp only [List.foldl_nil]
      symm
      unfold specSubst
      conv_rhs => rw [← List.map_id segs]
      apply List.map_congr_left
      intro sg _
      cases sg with
      | lit s => rfl
      | hole k0 => rfl
  | cons p rest ih =>
      obtain ⟨k, v⟩ := p
      simp only [List.map_cons, List.nodup_cons] at hnd
      rw [List.foldl_cons, ih hnd.2]
      cases v with
      | none =>
          simp only [applyParam]
          unfold specSubst
          apply List.map_congr_left
          intro sg _
          cases sg with
          | lit s => rfl
          | hole k0 =>
              dsimp only
              by_cases hk0 : k0 = k
              · subst hk0
                rw [lookupParam_of_not_mem rest k0 hnd.1]
                simp [lookupParam]
              · have hl : lookupParam ((k, none) :: rest) k0 = lookupParam rest k0 := by
                  simp only [lookupParam]
                  rw [if_neg (fun hh : k = k0 => hk0 hh.symm)]
                rw [hl]
      | some x =>
          simp only [applyParam]
          unfold specSubst substSegs
          rw [List.map_map]
          apply List.map_congr_left
          intro sg _
          simp only [Function.comp_apply]
          cases sg with
          | lit s => rfl
          | hole k0 =>
              dsimp only
              by_cases hk0 : k0 = k
              · subst hk0
                have hl : lookupParam ((k0, some x) :: rest) k0 = some x := by
                  simp [lookupParam]
                simp [hl]
              · have hl : lookupParam ((k, some x) :: rest) k0 = lookupParam rest k0 := by
                  simp only [lookupParam]
                  rw [if_neg (fun hh : k = k0 => hk0 hh.symm)]
                simp [if_neg hk0, hl]

/-- **C6, counterexample.** The claim says every whole-token placeholder
whose key is bound to a non-null value is replaced.  With the template
`/:x:y` and the map `{ y: "val", x: "1" }` (entries iterated in insertion
order), substituting `y` first produces `/:xval`, which destroys the word
boundary after `:x`; the subsequent substitution of `x` then finds no
match, so the placeholder `:x` — whole-token in the original template and
bound to the non-null value `"1"` — survives unsubstituted, instead of
producing `/1val` as the claim requires. -/
theorem c6_counterexample :
    substPath "/:x:y" [("y", some (PVal.str "val")), ("x", some (PVal.str "1"))]
      = "/:xval" ∧
    substPath "/:x:y" [("y", some (PVal.str "val")), ("x", some (PVal.str "1"))]
      ≠ "/1val" := by
  constructor <;> decide

/-- **C6, amended.** For every template in which each placeholder has a
nonempty word-character key and is followed by end-of-template or a
literal opening with a non-word character (so substitutions cannot destroy
a later placeholder's trailing word boundary), and every path-parameter
map with distinct keys: each placeholder whose key is bound to a non-null
value is replaced by the URL-encoded string form of that value, while
placeholders whose key is absent or bound to null, and all literal parts,
are left untouched. -/
theorem c6_amended_path_substitution (segs : List Seg)
    (params : List (String × Option PVal))
    (hwf : wfSegs segs = true)
    (hk : ∀ p ∈ params, keyOK p.1 = true)
    (hnd : (params.map Prod.fst).Nodup) :
    substPath (render segs) params = render (specSubst params segs) := by
  rw [substPath_render segs params hwf hk, foldl_applyParam_eq_specSubst params hnd segs]

/-- Witness for the amended C6: `/users/:id` with `{ id: 42, q: "x" }`
yields `/users/42`. -/
theorem c6_amended_path_substitution_witness :
    substPath (render [Seg.lit "/users/", Seg.hole "id"])
        [("id", some (PVal.num 42)), ("q", some (PVal.str "x"))]
      = "/users/42" :=
  (c6_amended_path_substitution [Seg.lit "/users/", Seg.hole "id"]
      [("id", some (PVal.num 42)), ("q", some (PVal.str "x"))]
      (by decide) (by decide) (by decide)).trans (by decide)
